import Mathlib

/-!
Verification of the LightSync WebDAV client (`src-tauri/src/webdav/client.rs`).

The embedding models Rust strings as `List Char` and mirrors the string
methods the client uses (`contains`, `find`, `split`, `trim_start_matches`,
`trim_end_matches`, `to_lowercase`, `trim`) together with the client's
operations: URL joining, HTTP status classification, server-type detection,
the PROPFIND multi-status parser, and client construction.  Byte indices of
Rust `str::find` become character indices; both sides slice the same list,
so prefixes/suffixes around occurrences agree.
-/

namespace LightSync

/-- Rust `str::contains` with a literal pattern: `pat` occurs as a
contiguous substring of `hay`. -/
def containsSub (pat hay : List Char) : Bool :=
  match hay with
  | [] => pat.isEmpty
  | c :: t => pat.isPrefixOf (c :: t) || containsSub pat t

/-- Rust `str::find` with a literal pattern: character index of the first
occurrence of `pat` in `hay`. -/
def findSub (pat hay : List Char) : Option Nat :=
  match hay with
  | [] => if pat.isEmpty then some 0 else none
  | c :: t =>
    if pat.isPrefixOf (c :: t) then some 0
    else (findSub pat t).map (· + 1)

/-- Fueled worker for `splitOnSub`; the fuel only serves termination and is
always sufficient at the call site. -/
def splitOnSubGo (pat : List Char) : Nat → List Char → List (List Char)
  | 0, hay => [hay]
  | fuel + 1, hay =>
    match findSub pat hay with
    | none => [hay]
    | some i => hay.take i :: splitOnSubGo pat fuel (hay.drop (i + pat.length))

/-- Rust `str::split` with a (non-empty) literal pattern: the pieces of
`hay` between non-overlapping occurrences of `pat`, left to right. -/
def splitOnSub (pat hay : List Char) : List (List Char) :=
  splitOnSubGo pat (hay.length + 1) hay

/-- Rust `str::trim_start_matches(c)`: repeatedly removes the character `c`
from the front. -/
def trim_start_matches (c : Char) (l : List Char) : List Char :=
  l.dropWhile (fun d => d == c)

/-- Rust `str::trim_end_matches(c)`: repeatedly removes the character `c`
from the end. -/
def trim_end_matches (c : Char) (l : List Char) : List Char :=
  (l.reverse.dropWhile (fun d => d == c)).reverse

/-- Rust `char` whitespace per `char::is_whitespace` (Unicode White_Space),
used by `str::trim`. -/
def isRustWhitespace (c : Char) : Bool :=
  c == ' ' || c == '\t' || c == '\n' || c == '\r' ||
  c == Char.ofNat 11 || c == Char.ofNat 12 || c == Char.ofNat 0x85 ||
  c == Char.ofNat 0xA0 || c == Char.ofNat 0x1680 ||
  (decide (0x2000 ≤ c.toNat) && decide (c.toNat ≤ 0x200A)) ||
  c == Char.ofNat 0x2028 || c == Char.ofNat 0x2029 ||
  c == Char.ofNat 0x202F || c == Char.ofNat 0x205F || c == Char.ofNat 0x3000

/-- Rust `str::trim`: removes whitespace from both ends. -/
def rustTrim (l : List Char) : List Char :=
  ((l.dropWhile isRustWhitespace).reverse.dropWhile isRustWhitespace).reverse

/-- Rust `str::to_lowercase` restricted to the ASCII range; every vendor
token compared against it is ASCII. -/
def toLowerChars (l : List Char) : List Char := l.map Char.toLower

/-- Rust `"1024".parse::<u64>()`: optional leading plus sign, at least one
decimal digit, value within the `u64` range. -/
def parseU64 (s : List Char) : Option Nat :=
  let ds := match s with
    | '+' :: rest => rest
    | _ => s
  if ds.isEmpty then none
  else if ds.all Char.isDigit then
    let v := ds.foldl (fun acc c => acc * 10 + (c.toNat - 48)) 0
    if v < 18446744073709551616 then some v else none
  else none

/-- Decimal rendering of a status code, as in `format!("{}", status.as_u16())`. -/
def natChars (n : Nat) : List Char := (Nat.repr n).data

/-- The error enum of `src-tauri/src/error.rs` (`SyncError`); payloads that
are foreign error objects in Rust are modelled by their display text. -/
inductive SyncError where
  | Io (msg : List Char)
  | WebDav (msg : List Char)
  | Network (msg : List Char)
  | Serde (msg : List Char)
  | Tauri (msg : List Char)
  | Conflict (msg : List Char)
  | AuthError (msg : List Char)
  | FileNotFound (msg : List Char)
  | NotFound (msg : List Char)
  | ConfigError (msg : List Char)
  | DatabaseError (msg : List Char)
  | WatcherError (msg : List Char)
  | Unknown (msg : List Char)
  deriving DecidableEq, Repr

/-- The error taxonomy kinds named by the spec, extracted from a `SyncError`. -/
inductive ErrKind where
  | success
  | auth
  | notFound
  | webdav
  | network
  | config
  | localIo
  | otherKind
  deriving DecidableEq, Repr

/-- Kind of a `SyncError` value. -/
def kindOfError : SyncError → ErrKind
  | .Io _ => .localIo
  | .WebDav _ => .webdav
  | .Network _ => .network
  | .AuthError _ => .auth
  | .FileNotFound _ => .notFound
  | .NotFound _ => .notFound
  | .ConfigError _ => .config
  | _ => .otherKind

/-- Kind of an operation outcome. -/
def kindOf {α : Type} : Except SyncError α → ErrKind
  | .ok _ => .success
  | .error e => kindOfError e

/-- `FileInfo` from `client.rs`: one entry of a directory listing. -/
structure FileInfo where
  path : List Char
  name : List Char
  is_directory : Bool
  size : Nat
  modified : Option Int
  deriving DecidableEq, Repr

/-- `WebDavServerConfig` from `src-tauri/src/database.rs`. -/
structure WebDavServerConfig where
  id : List Char
  name : List Char
  url : List Char
  username : List Char
  use_https : Bool
  timeout : Nat
  last_test_at : Option Int
  last_test_status : List Char
  last_test_error : Option (List Char)
  server_type : List Char
  enabled : Bool
  created_at : Int
  updated_at : Int
  deriving DecidableEq, Repr

/-- Modelled from the spec: `WebDavServerConfig::validate_url` delegates URL
parsing to the external `url` crate (`url::Url::parse`), which is not part of
this repository.  The spec requires an "absolute, http/https scheme,
non-empty host" URL; a parseable URL is modelled as `scheme://host[/...]`
with scheme `http` or `https` and a non-empty host part. -/
def urlHostPart (url : List Char) : Option (List Char) :=
  if List.isPrefixOf ("https://".data) url then
    some ((url.drop 8).takeWhile (fun c => !(c == '/')))
  else if List.isPrefixOf ("http://".data) url then
    some ((url.drop 7).takeWhile (fun c => !(c == '/')))
  else none

/-- `WebDavServerConfig::validate_url`: non-empty, parseable, http/https
scheme, host present (parsing modelled by `urlHostPart`). -/
def validate_url (url : List Char) : Except (List Char) Unit :=
  if (rustTrim url).isEmpty then .error ("URL cannot be empty".data)
  else
    match urlHostPart url with
    | none => .error ("URL must use http or https protocol".data)
    | some h =>
      if h.isEmpty then .error ("URL must contain a valid host".data)
      else .ok ()

/-- `WebDavServerConfig::validate_name`. -/
def validate_name (name : List Char) : Except (List Char) Unit :=
  if (rustTrim name).isEmpty then .error ("Server name cannot be empty".data)
  else .ok ()

/-- `WebDavServerConfig::validate_username`. -/
def validate_username (username : List Char) : Except (List Char) Unit :=
  if (rustTrim username).isEmpty then .error ("Username cannot be empty".data)
  else .ok ()

/-- `WebDavServerConfig::validate_timeout`: 1–300 seconds inclusive. -/
def validate_timeout (timeout : Nat) : Except (List Char) Unit :=
  if timeout < 1 ∨ timeout > 300 then
    .error (("Timeout must be between 1 and 300 seconds, got: ".data) ++ natChars timeout)
  else .ok ()

/-- `WebDavServerConfig::validate`: name, then url, then username, then
timeout; first failure wins. -/
def WebDavServerConfig.validate (cfg : WebDavServerConfig) : Except (List Char) Unit := do
  validate_name cfg.name
  validate_url cfg.url
  validate_username cfg.username
  validate_timeout cfg.timeout

/-- The state a constructed `WebDavClient` holds (url, username, password,
timeout).  The reqwest transport handle is external I/O with no
claim-relevant state and is omitted. -/
structure WebDavClient where
  url : List Char
  username : List Char
  password : List Char
  timeout : Nat
  deriving DecidableEq, Repr

/-- `WebDavClient::new`: validate the config, reject empty/whitespace-only
passwords, then build the client.  The authorization-header and reqwest
builder steps operate on already-validated data; their failure paths are
unreachable for values representable here and both lie after the password
check, so the constructed-client branch models them as succeeding. -/
def WebDavClient.new (config : WebDavServerConfig) (password : List Char) :
    Except SyncError WebDavClient :=
  match config.validate with
  | .error e => .error (SyncError.ConfigError (("Invalid server config: ".data) ++ e))
  | .ok _ =>
    if (rustTrim password).isEmpty then
      .error (SyncError.ConfigError ("Password cannot be empty".data))
    else
      .ok { url := config.url, username := config.username,
            password := password, timeout := config.timeout }

/-- `WebDavClient::build_url`: trim trailing slashes from the base and
leading slashes from the path, join with one slash. -/
def build_url (clientUrl path : List Char) : List Char :=
  (trim_end_matches '/' clientUrl) ++ '/' :: (trim_start_matches '/' path)

/-- `reqwest::StatusCode::canonical_reason` (external `http` crate) for the
codes the classifier can mention; unlisted codes yield `none` and the
messages fall back to "Unknown". -/
def canonical_reason (s : Nat) : Option (List Char) :=
  match s with
  | 200 => some ("OK".data)
  | 201 => some ("Created".data)
  | 204 => some ("No Content".data)
  | 207 => some ("Multi-Status".data)
  | 226 => some ("IM Used".data)
  | 400 => some ("Bad Request".data)
  | 401 => some ("Unauthorized".data)
  | 403 => some ("Forbidden".data)
  | 404 => some ("Not Found".data)
  | 405 => some ("Method Not Allowed".data)
  | 409 => some ("Conflict".data)
  | 411 => some ("Length Required".data)
  | 412 => some ("Precondition Failed".data)
  | 413 => some ("Payload Too Large".data)
  | 415 => some ("Unsupported Media Type".data)
  | 423 => some ("Locked".data)
  | 424 => some ("Failed Dependency".data)
  | 500 => some ("Internal Server Error".data)
  | 501 => some ("Not Implemented".data)
  | 502 => some ("Bad Gateway".data)
  | 503 => some ("Service Unavailable".data)
  | 504 => some ("Gateway Timeout".data)
  | 507 => some ("Insufficient Storage".data)
  | _ => none

/-- `status.canonical_reason().unwrap_or("Unknown")`. -/
def reasonChars (s : Nat) : List Char :=
  (canonical_reason s).getD ("Unknown".data)

/-- The per-code detail text of the 4xx arm of `check_response_status`. -/
def clientErrorDetail (s : Nat) : List Char :=
  match s with
  | 400 => "Bad Request: The server could not understand the request. This may indicate a client bug.".data
  | 405 => "Method Not Allowed: The requested operation is not supported for this resource.".data
  | 409 => "Conflict: The request conflicts with the current state of the resource. The resource may already exist or be locked.".data
  | 411 => "Length Required: The request did not specify the length of its content.".data
  | 412 => "Precondition Failed: One or more conditions in the request header fields evaluated to false.".data
  | 413 => "Payload Too Large: The request entity is larger than the server is willing or able to process.".data
  | 415 => "Unsupported Media Type: The server does not support the media type of the request.".data
  | 423 => "Locked: The resource is locked and cannot be modified.".data
  | 424 => "Failed Dependency: The request failed due to failure of a previous request.".data
  | 507 => "Insufficient Storage: The server is unable to store the representation needed to complete the request.".data
  | _ => "Client error occurred.".data

/-- The per-code detail text of the 5xx arm of `check_response_status`. -/
def serverErrorDetail (s : Nat) : List Char :=
  match s with
  | 500 => "Internal Server Error: The server encountered an unexpected condition. Please try again later or contact the server administrator.".data
  | 501 => "Not Implemented: The server does not support the functionality required to fulfill the request.".data
  | 502 => "Bad Gateway: The server received an invalid response from an upstream server.".data
  | 503 => "Service Unavailable: The server is temporarily unable to handle the request. Please try again later.".data
  | 504 => "Gateway Timeout: The server did not receive a timely response from an upstream server.".data
  | 507 => "Insufficient Storage: The server is unable to store the representation needed to complete the request.".data
  | _ => "Server error occurred. Please try again later or contact the server administrator.".data

/-- `format!("HTTP {} {}: {}", code, reason, detail)`. -/
def httpMessage (s : Nat) (detail : List Char) : List Char :=
  ("HTTP ".data) ++ natChars s ++ ' ' :: reasonChars s ++ (": ".data) ++ detail

/-- `WebDavClient::check_response_status`, the shared status classifier used
by list, upload, download, delete and mkdir.  `status.is_success()` is
200–299; 207 lies inside it but the source tests it separately. -/
def check_response_status (status : Nat) : Except SyncError Unit :=
  if (200 ≤ status ∧ status < 300) ∨ status = 207 then .ok ()
  else if status = 401 then
    .error (SyncError.AuthError
      ("Authentication failed: Invalid username or password. Please check your credentials.".data))
  else if status = 403 then
    .error (SyncError.AuthError
      ("Access forbidden: You do not have permission to access this resource. Please check your account permissions.".data))
  else if status = 404 then
    .error (SyncError.NotFound
      ("Resource not found: The requested file or folder does not exist on the server.".data))
  else if 400 ≤ status ∧ status < 500 then
    .error (SyncError.WebDav (httpMessage status (clientErrorDetail status)))
  else if 500 ≤ status ∧ status < 600 then
    .error (SyncError.WebDav (httpMessage status (serverErrorDetail status)))
  else
    .error (SyncError.WebDav
      (("Unexpected HTTP status: ".data) ++ natChars status ++ ' ' :: reasonChars status))

/-- The `Server`-header arm of `WebDavClient::detect_server_type`: substring
match on the lowercased value, nextcloud, then owncloud, apache, nginx. -/
def serverHeaderType (serverHeader : Option (List Char)) : Option (List Char) :=
  match serverHeader with
  | none => none
  | some s =>
    let sl := toLowerChars s
    if containsSub ("nextcloud".data) sl then some ("nextcloud".data)
    else if containsSub ("owncloud".data) sl then some ("owncloud".data)
    else if containsSub ("apache".data) sl then some ("apache".data)
    else if containsSub ("nginx".data) sl then some ("nginx".data)
    else none

/-- The `X-Powered-By` arm of `WebDavClient::detect_server_type`. -/
def poweredByType (poweredBy : Option (List Char)) : Option (List Char) :=
  match poweredBy with
  | none => none
  | some p =>
    let pl := toLowerChars p
    if containsSub ("nextcloud".data) pl then some ("nextcloud".data)
    else if containsSub ("owncloud".data) pl then some ("owncloud".data)
    else none

/-- `WebDavClient::detect_server_type` over the response headers: `Server`
value, `X-Powered-By` value (absent headers and values that fail `to_str`
both fall through, modelled as `none`), and presence of `X-OC-Version`. -/
def detect_server_type (serverHeader poweredBy : Option (List Char))
    (hasOcVersion : Bool) : List Char :=
  match serverHeaderType serverHeader with
  | some t => t
  | none =>
    match poweredByType poweredBy with
    | some t => t
    | none => if hasOcVersion then "owncloud".data else "generic".data

/-- `WebDavClient::test_connection`, from the point where the PROPFIND
response (status plus headers) is available: inline 401/403 checks, the
non-success/non-207 check, server-type detection, then the stricter
"must be 207 or 200" WebDAV support check. -/
def test_connection (status : Nat) (serverHeader poweredBy : Option (List Char))
    (hasOcVersion : Bool) : Except SyncError (List Char) :=
  if status = 401 then
    .error (SyncError.AuthError
      ("Authentication failed: Invalid username or password".data))
  else if status = 403 then
    .error (SyncError.AuthError
      ("Access forbidden: User does not have permission".data))
  else if ¬ ((200 ≤ status ∧ status < 300) ∨ status = 207) then
    .error (SyncError.WebDav
      (("Server returned error status: ".data) ++ natChars status ++ ' ' :: reasonChars status))
  else
    let server_type := detect_server_type serverHeader poweredBy hasOcVersion
    if status ≠ 207 ∧ status ≠ 200 then
      .error (SyncError.WebDav
        ("Server does not appear to support WebDAV protocol".data))
    else
      .ok server_type

/-- The literal block-open marker the multi-status parser splits on. -/
def respOpen : List Char := "<D:response>".data

/-- The literal block-close marker the multi-status parser searches for. -/
def respClose : List Char := "</D:response>".data

/-- The literal collection marker deciding directory-ness. -/
def collectionMark : List Char := "<D:collection/>".data

/-- `WebDavClient::extract_xml_value`: locate `<tag>`, then `</tag>` after
it, and return the text between; either search failing is a WebDav error. -/
def extract_xml_value (xml tag : List Char) : Except SyncError (List Char) :=
  let startTag := ('<' :: tag) ++ ['>']
  let endTag := ('<' :: '/' :: tag) ++ ['>']
  match findSub startTag xml with
  | some startPos =>
    let contentStart := startPos + startTag.length
    match findSub endTag (xml.drop contentStart) with
    | some endPos => .ok ((xml.drop contentStart).take endPos)
    | none => .error (SyncError.WebDav (("Failed to extract XML value for tag: ".data) ++ tag))
  | none => .error (SyncError.WebDav (("Failed to extract XML value for tag: ".data) ++ tag))

/-- `path.trim_end_matches('/').split('/').last().unwrap_or("")`: the display
name derived from an href. -/
def lastSegment (path : List Char) : List Char :=
  ((trim_end_matches '/' path).splitOn '/').getLast?.getD []

/-- One iteration of the `parse_propfind_response` loop: a split block is
skipped when it has no `</D:response>`, parsed otherwise; the entry is
dropped when its normalized href equals the normalized queried path. -/
def processBlock (base blk : List Char) : Except SyncError (Option FileInfo) :=
  match findSub respClose blk with
  | none => .ok none
  | some endPos =>
    let content := blk.take endPos
    match extract_xml_value content ("D:href".data) with
    | .error e => .error e
    | .ok path =>
      if trim_end_matches '/' path = trim_end_matches '/' base then .ok none
      else
        let name := lastSegment path
        let isDir := containsSub collectionMark content
        let size := if isDir then 0
          else ((extract_xml_value content ("D:getcontentlength".data)).toOption.bind parseU64).getD 0
        .ok (some { path := path, name := name, is_directory := isDir,
                    size := size, modified := none })

/-- The `parse_propfind_response` loop over all split blocks, in order, with
the first error aborting the whole parse. -/
def processBlocks (base : List Char) : List (List Char) → Except SyncError (List FileInfo)
  | [] => .ok []
  | b :: rest =>
    match processBlock base b with
    | .error e => .error e
    | .ok entry =>
      match processBlocks base rest with
      | .error e => .error e
      | .ok es =>
        match entry with
        | some fi => .ok (fi :: es)
        | none => .ok es

/-- `WebDavClient::parse_propfind_response`: split the body on the literal
`<D:response>`, skip the text before the first occurrence, and process each
block. -/
def parse_propfind_response (xml base : List Char) : Except SyncError (List FileInfo) :=
  processBlocks base ((splitOnSub respOpen xml).drop 1)

/-! Well-formed multi-status bodies, for reasoning about the parser on every
body that describes a collection plus its children (claim C4).  A body is
rendered from the queried collection's own response fragment plus one
fragment per child, in the shape WebDAV servers emit for `PROPFIND`
`Depth: 1`. -/

/-- A child resource inside a rendered multi-status body: either a file
carrying a `getcontentlength` text, or a directory (collection). -/
inductive ChildKind where
  | file (sizeText : List Char)
  | dir
  deriving DecidableEq, Repr

/-- A child entry of the listed collection, as rendered into the body. -/
structure Child where
  href : List Char
  kind : ChildKind
  deriving DecidableEq, Repr

/-- Literal `<D:href>`. -/
def hrefOpenTag : List Char := "<D:href>".data

/-- Literal `</D:href>`. -/
def hrefCloseTag : List Char := "</D:href>".data

/-- Literal `<D:getcontentlength>`. -/
def clOpenTag : List Char := "<D:getcontentlength>".data

/-- Literal `</D:getcontentlength>`. -/
def clCloseTag : List Char := "</D:getcontentlength>".data

/-- Property block of a collection fragment (contains the collection marker). -/
def dirProps : List Char :=
  "<D:propstat><D:prop><D:resourcetype><D:collection/></D:resourcetype></D:prop></D:propstat>".data

/-- Property block of a file fragment, up to the content-length open tag. -/
def propsFilePre : List Char := "<D:propstat><D:prop><D:resourcetype/>".data

/-- Property block of a file fragment, after the content-length close tag. -/
def propsFilePost : List Char := "</D:prop></D:propstat>".data

/-- Body text before the first response fragment. -/
def msHeader : List Char :=
  "<?xml version=\"1.0\" encoding=\"utf-8\"?><D:multistatus xmlns:D=\"DAV:\">".data

/-- Body text after the last response fragment. -/
def msFooter : List Char := "</D:multistatus>".data

/-- The inside of one response fragment for a given resource. -/
def childInner (c : Child) : List Char :=
  match c.kind with
  | ChildKind.dir => hrefOpenTag ++ c.href ++ hrefCloseTag ++ dirProps
  | ChildKind.file st =>
    hrefOpenTag ++ c.href ++ hrefCloseTag ++ propsFilePre ++
      clOpenTag ++ st ++ clCloseTag ++ propsFilePost

/-- Fragments of a body, each wrapped in `<D:response>...</D:response>`,
followed by the footer. -/
def renderTail : List (List Char) → List Char
  | [] => msFooter
  | i :: rest => respOpen ++ i ++ respClose ++ renderTail rest

/-- A full 207 multi-status body describing the queried collection
(`selfHref`, its own response fragment) together with its children. -/
def renderMultistatus (selfHref : List Char) (children : List Child) : List Char :=
  msHeader ++ renderTail (childInner ⟨selfHref, ChildKind.dir⟩ :: children.map childInner)

/-- The blocks `splitOnSub respOpen` produces from `renderTail`, one block
per fragment: middle blocks end at the next fragment's open marker, the last
block additionally carries the footer. -/
def blocksOf : List (List Char) → List (List Char)
  | [] => []
  | [i] => [i ++ respClose ++ msFooter]
  | i :: rest => (i ++ respClose) :: blocksOf rest

/-- The character `<` does not occur: the well-formedness condition on hrefs
and size texts spliced into a rendered body. -/
def noLt (l : List Char) : Bool := l.all (fun c => !(c == '<'))

/-- Well-formedness of one child relative to the queried path: its href is
markup-free and does not normalize to the queried path, and a file child
carries a parseable `u64` size text. -/
def childOk (base : List Char) (c : Child) : Bool :=
  noLt c.href &&
  !(trim_end_matches '/' c.href == trim_end_matches '/' base) &&
  (match c.kind with
   | ChildKind.dir => true
   | ChildKind.file st => noLt st && (parseU64 st).isSome)

/-- The `FileInfo` the parser produces for one rendered child. -/
def entryOf (c : Child) : FileInfo :=
  { path := c.href
    name := lastSegment c.href
    is_directory := match c.kind with
      | ChildKind.dir => true
      | ChildKind.file _ => false
    size := match c.kind with
      | ChildKind.dir => 0
      | ChildKind.file st => (parseU64 st).getD 0
    modified := none }

/-- No non-trivial border: no strict non-empty suffix of `pat` is also a
prefix of `pat`.  Every concrete marker the parser searches for satisfies
this, which makes first-occurrence positions in concatenations canonical. -/
def borderFreeB (pat : List Char) : Bool :=
  (List.range pat.length).all fun k => k == 0 || !((pat.drop k).isPrefixOf pat)

/-- No strict non-empty prefix of `pat` is a suffix of `T`: an occurrence of
`pat` cannot start inside `T` and continue past its end. -/
def noSpanB (pat T : List Char) : Bool :=
  (List.range pat.length).all fun k => k == 0 || !((pat.take k).isSuffixOf T)

/-- A valid server profile used to instantiate construction theorems
(scenario 1 of the spec). -/
def exampleConfig : WebDavServerConfig :=
  { id := "test-id".data
    name := "My Server".data
    url := "https://example.com/webdav".data
    username := "u".data
    use_https := true
    timeout := 30
    last_test_at := none
    last_test_status := "unknown".data
    last_test_error := none
    server_type := "generic".data
    enabled := true
    created_at := 0
    updated_at := 0 }

end LightSync

deriving instance DecidableEq for Except

set_option maxRecDepth 100000

namespace LightSync

/-! String lemmas: occurrences, first occurrences, and splitting. -/

theorem containsSub_nil_left (hay : List Char) : containsSub [] hay = true := by
  induction hay with
  | nil => rfl
  | cons c t ih => simp [containsSub]

theorem contains_of_prefix {pat hay : List Char} (h : pat <+: hay) :
    containsSub pat hay = true := by
  cases hay with
  | nil =>
    have hp : pat = [] := List.prefix_nil.mp h
    subst hp; rfl
  | cons c t =>
    simp only [containsSub, Bool.or_eq_true]
    left
    simpa using h

theorem containsSub_cons_of_tail {pat : List Char} {c : Char} {t : List Char}
    (h : containsSub pat t = true) : containsSub pat (c :: t) = true := by
  simp [containsSub, h]

theorem containsSub_append_right {pat b : List Char} (a : List Char)
    (h : containsSub pat b = true) : containsSub pat (a ++ b) = true := by
  induction a with
  | nil => simpa using h
  | cons c t ih => exact containsSub_cons_of_tail ih

theorem containsSub_append_left {pat a : List Char} (b : List Char)
    (h : containsSub pat a = true) : containsSub pat (a ++ b) = true := by
  induction a with
  | nil =>
    have hp : pat = [] := by
      cases pat with
      | nil => rfl
      | cons p ps => simp [containsSub] at h
    subst hp; exact containsSub_nil_left _
  | cons c t ih =>
    rcases (by simpa [containsSub] using h : pat <+: c :: t ∨ containsSub pat t = true) with hp | ht
    · exact contains_of_prefix (by simpa [List.cons_append] using hp.trans (List.prefix_append (c :: t) b))
    · exact containsSub_cons_of_tail (ih ht)

theorem containsSub_subset {pat hay : List Char} (h : containsSub pat hay = true) :
    pat ⊆ hay := by
  induction hay with
  | nil =>
    cases pat with
    | nil => exact fun x hx => hx
    | cons p ps => simp [containsSub] at h
  | cons c t ih =>
    rcases (by simpa [containsSub] using h : pat <+: c :: t ∨ containsSub pat t = true) with hp | ht
    · exact hp.subset
    · exact (ih ht).trans (List.subset_cons_self c t)

theorem head?_mem {pat : List Char} {c : Char} (h : pat.head? = some c) : c ∈ pat := by
  cases pat with
  | nil => simp at h
  | cons p ps => simp at h; simp [h]

theorem head?_mem_take {pat : List Char} {c : Char} {k : Nat}
    (h : pat.head? = some c) (hk : 0 < k) : c ∈ pat.take k := by
  cases pat with
  | nil => simp at h
  | cons p ps =>
    cases k with
    | zero => omega
    | succ k => simp at h; simp [List.take_succ_cons, h]

theorem containsSub_eq_false_of_noLt {pat hay : List Char}
    (hmem : '<' ∈ pat) (hhay : noLt hay = true) : containsSub pat hay = false := by
  cases hc : containsSub pat hay with
  | false => rfl
  | true =>
    exfalso
    have hlt : '<' ∈ hay := containsSub_subset hc hmem
    rw [noLt, List.all_eq_true] at hhay
    have := hhay _ hlt
    simp at this

theorem findSub_bound {pat hay : List Char} {i : Nat} (h : findSub pat hay = some i) :
    i + pat.length ≤ hay.length := by
  induction hay generalizing i with
  | nil =>
    by_cases hp : pat.isEmpty
    · have : pat = [] := by simpa using hp
      subst this
      simp [findSub] at h
      omega
    · simp [findSub, hp] at h
  | cons c t ih =>
    by_cases hp : pat.isPrefixOf (c :: t)
    · rw [findSub, if_pos hp] at h
      have h0 : i = 0 := by simpa using h.symm
      subst h0
      have : pat <+: c :: t := by simpa using hp
      simpa using this.length_le
    · rw [findSub, if_neg hp] at h
      cases hf : findSub pat t with
      | none => rw [hf] at h; simp at h
      | some j =>
        rw [hf] at h
        simp at h
        have := ih hf
        simp only [List.length_cons]
        omega

theorem findSub_eq_none {pat hay : List Char} (h : containsSub pat hay = false) :
    findSub pat hay = none := by
  induction hay with
  | nil =>
    have : pat.isEmpty = false := by simpa [containsSub] using h
    simp [findSub, this]
  | cons c t ih =>
    have h2 : pat.isPrefixOf (c :: t) = false ∧ containsSub pat t = false := by
      simpa [containsSub, Bool.or_eq_false_iff] using h
    rw [findSub, if_neg (by simp [h2.1]), ih h2.2]
    rfl

theorem findSub_prefix_zero {pat hay : List Char} (h : pat <+: hay) :
    findSub pat hay = some 0 := by
  cases hay with
  | nil =>
    have hp : pat = [] := List.prefix_nil.mp h
    subst hp; simp [findSub]
  | cons c t => rw [findSub, if_pos (by simpa using h)]

theorem borderFree_spec {pat : List Char} (h : borderFreeB pat = true) {k : Nat}
    (hk0 : 0 < k) (hklt : k < pat.length) : ¬ pat.drop k <+: pat := by
  rw [borderFreeB, List.all_eq_true] at h
  have := h k (List.mem_range.mpr hklt)
  intro hp
  have hb : (pat.drop k).isPrefixOf pat = true := by simpa using hp
  rcases (by simpa using this : k = 0 ∨ (pat.drop k).isPrefixOf pat = false) with h0 | h1
  · omega
  · rw [hb] at h1; simp at h1

theorem noSpan_spec {pat T : List Char} (h : noSpanB pat T = true) {k : Nat}
    (hk0 : 0 < k) (hklt : k < pat.length) : ¬ pat.take k <:+ T := by
  rw [noSpanB, List.all_eq_true] at h
  have := h k (List.mem_range.mpr hklt)
  intro hs
  have hb : (pat.take k).isSuffixOf T = true := by simpa using hs
  rcases (by simpa using this : k = 0 ∨ (pat.take k).isSuffixOf T = false) with h0 | h1
  · omega
  · rw [hb] at h1; simp at h1

end LightSync

namespace LightSync

theorem containsSub_append_decomp {pat : List Char} (a b : List Char)
    (h : containsSub pat (a ++ b) = true) :
    containsSub pat a = true ∨ containsSub pat b = true ∨
      ∃ k, 0 < k ∧ k < pat.length ∧ pat.take k <:+ a ∧ pat.drop k <+: b := by
  induction a with
  | nil => right; left; simpa using h
  | cons c t ih =>
    rcases (by simpa [containsSub] using h :
        pat <+: c :: (t ++ b) ∨ containsSub pat (t ++ b) = true) with hp | ht
    · have hp' : pat <+: (c :: t) ++ b := by simpa [List.cons_append] using hp
      by_cases hlen : pat.length ≤ (c :: t).length
      · left
        exact contains_of_prefix
          (List.prefix_of_prefix_length_le hp' (List.prefix_append (c :: t) b) hlen)
      · push_neg at hlen
        right; right
        have hct : (c :: t) <+: pat :=
          List.prefix_of_prefix_length_le (List.prefix_append (c :: t) b) hp' (by omega)
        refine ⟨(c :: t).length, by simp, hlen, ?_, ?_⟩
        · have htake : pat.take (c :: t).length = c :: t :=
            (List.prefix_iff_eq_take.mp hct).symm
          rw [htake]
        · obtain ⟨u, hu⟩ := hct
          obtain ⟨v, hv⟩ := hp'
          have hdrop : pat.drop (c :: t).length = u := by
            rw [← hu]; exact List.drop_left (c :: t) u
          rw [hdrop]
          refine ⟨v, ?_⟩
          rw [← hu, List.append_assoc] at hv
          exact List.append_cancel_left hv
    · rcases ih ht with h1 | h2 | ⟨k, hk0, hkl, hsuf, hpre⟩
      · exact Or.inl (containsSub_cons_of_tail h1)
      · exact Or.inr (Or.inl h2)
      · exact Or.inr (Or.inr ⟨k, hk0, hkl, hsuf.trans (List.suffix_cons c t), hpre⟩)

theorem contains_mid_false (pat T1 mid T2 : List Char)
    (hh : pat.head? = some '<')
    (h1 : containsSub pat T1 = false)
    (hs : noSpanB pat T1 = true)
    (hm : noLt mid = true)
    (h2 : containsSub pat T2 = false) :
    containsSub pat (T1 ++ (mid ++ T2)) = false := by
  cases hc : containsSub pat (T1 ++ (mid ++ T2)) with
  | false => rfl
  | true =>
    exfalso
    rcases containsSub_append_decomp T1 (mid ++ T2) hc with hA | hB | ⟨k, hk0, hkl, hsuf, _⟩
    · rw [hA] at h1; simp at h1
    · rcases containsSub_append_decomp mid T2 hB with hC | hD | ⟨k, hk0, hkl, hsuf, _⟩
      · have := containsSub_eq_false_of_noLt (head?_mem hh) hm
        rw [hC] at this; simp at this
      · rw [hD] at h2; simp at h2
      · have hlt : '<' ∈ mid := hsuf.subset (head?_mem_take hh hk0)
        rw [noLt, List.all_eq_true] at hm
        have := hm _ hlt
        simp at this
    · exact noSpan_spec hs hk0 hkl hsuf

theorem findSub_append_self (pat a b : List Char)
    (hbf : borderFreeB pat = true) (ha : containsSub pat a = false) :
    findSub pat (a ++ (pat ++ b)) = some a.length := by
  induction a with
  | nil => simpa using findSub_prefix_zero (List.prefix_append pat b)
  | cons c t ih =>
    have hcomp : pat.isPrefixOf (c :: t) = false ∧ containsSub pat t = false := by
      simpa [containsSub, Bool.or_eq_false_iff] using ha
    have hsplit : ¬ pat <+: (c :: t) ++ (pat ++ b) := by
      intro hp
      by_cases hlen : pat.length ≤ (c :: t).length
      · have hin : pat <+: c :: t :=
          List.prefix_of_prefix_length_le hp (List.prefix_append (c :: t) (pat ++ b)) hlen
        have := contains_of_prefix hin
        rcases (by simpa [containsSub] using this :
            pat <+: c :: t ∨ containsSub pat t = true) with _ | hcc
        · have : pat.isPrefixOf (c :: t) = true := by simpa using hin
          rw [hcomp.1] at this; simp at this
        · rw [hcomp.2] at hcc; simp at hcc
      · push_neg at hlen
        have hct : (c :: t) <+: pat :=
          List.prefix_of_prefix_length_le (List.prefix_append (c :: t) (pat ++ b)) hp (by omega)
        obtain ⟨u, hu⟩ := hct
        obtain ⟨v, hv⟩ := hp
        have hdrop : pat.drop (c :: t).length = u := by
          rw [← hu]; exact List.drop_left (c :: t) u
        have hv' : ((c :: t) ++ u) ++ v = (c :: t) ++ (pat ++ b) := by rw [hu]; exact hv
        have huv : u ++ v = pat ++ b := by
          rw [List.append_assoc] at hv'
          exact List.append_cancel_left hv'
        have hulen : u.length ≤ pat.length := by
          have := congrArg List.length hu
          simp at this
          omega
        have hupat : u <+: pat :=
          List.prefix_of_prefix_length_le ⟨v, huv⟩ (List.prefix_append pat b) hulen
        exact borderFree_spec hbf (by simp) hlen (hdrop ▸ hupat)
    rw [List.cons_append, findSub, if_neg (by simpa using hsplit), ih hcomp.2]
    simp

end LightSync

namespace LightSync

theorem splitOnSubGo_congr (pat : List Char) (hne : pat ≠ []) :
    ∀ f1 f2 hay, hay.length < f1 → hay.length < f2 →
      splitOnSubGo pat f1 hay = splitOnSubGo pat f2 hay := by
  intro f1
  induction f1 with
  | zero => intro f2 hay h1 _; omega
  | succ f1 ih =>
    intro f2 hay h1 h2
    cases f2 with
    | zero => omega
    | succ f2 =>
      rw [splitOnSubGo, splitOnSubGo]
      cases hf : findSub pat hay with
      | none => rfl
      | some i =>
        have hb := findSub_bound hf
        have hp : 0 < pat.length := by
          cases pat with
          | nil => exact absurd rfl hne
          | cons p ps => simp
        have hd : (hay.drop (i + pat.length)).length < f1 := by
          simp only [List.length_drop]; omega
        have hd2 : (hay.drop (i + pat.length)).length < f2 := by
          simp only [List.length_drop]; omega
        dsimp only
        rw [ih f2 (hay.drop (i + pat.length)) hd hd2]

theorem splitOnSub_cons_of_findSub {pat hay : List Char} {i : Nat} (hne : pat ≠ [])
    (hf : findSub pat hay = some i) :
    splitOnSub pat hay = hay.take i :: splitOnSub pat (hay.drop (i + pat.length)) := by
  rw [splitOnSub, splitOnSub, splitOnSubGo, hf]
  have hb := findSub_bound hf
  have hp : 0 < pat.length := by
    cases pat with
    | nil => exact absurd rfl hne
    | cons p ps => simp
  have hlen : (hay.drop (i + pat.length)).length < hay.length := by
    simp only [List.length_drop]; omega
  dsimp only
  rw [splitOnSubGo_congr pat hne hay.length ((hay.drop (i + pat.length)).length + 1)
    (hay.drop (i + pat.length)) hlen (by omega)]

theorem splitOnSub_no_occ {pat hay : List Char} (h : containsSub pat hay = false) :
    splitOnSub pat hay = [hay] := by
  rw [splitOnSub, splitOnSubGo, findSub_eq_none h]

theorem splitOnSub_append (pat a b : List Char) (hne : pat ≠ [])
    (hbf : borderFreeB pat = true) (ha : containsSub pat a = false) :
    splitOnSub pat (a ++ (pat ++ b)) = a :: splitOnSub pat b := by
  have hf := findSub_append_self pat a b hbf ha
  rw [splitOnSub_cons_of_findSub hne hf]
  have ht : (a ++ (pat ++ b)).take a.length = a := List.take_left a (pat ++ b)
  have hd : (a ++ (pat ++ b)).drop (a.length + pat.length) = b := by
    rw [← List.append_assoc]
    exact List.drop_left' (by simp)
  rw [ht, hd]

end LightSync

namespace LightSync

theorem startTag_href : ('<' :: ("D:href".data)) ++ ['>'] = hrefOpenTag := by decide

theorem endTag_href : ('<' :: '/' :: ("D:href".data)) ++ ['>'] = hrefCloseTag := by decide

theorem startTag_cl : ('<' :: ("D:getcontentlength".data)) ++ ['>'] = clOpenTag := by decide

theorem endTag_cl : ('<' :: '/' :: ("D:getcontentlength".data)) ++ ['>'] = clCloseTag := by decide

theorem extract_xml_value_at (tag A val B : List Char)
    (hA : containsSub (('<' :: tag) ++ ['>']) A = false)
    (hbfS : borderFreeB (('<' :: tag) ++ ['>']) = true)
    (hbfE : borderFreeB (('<' :: '/' :: tag) ++ ['>']) = true)
    (hval : containsSub (('<' :: '/' :: tag) ++ ['>']) val = false) :
    extract_xml_value
      (A ++ ((('<' :: tag) ++ ['>']) ++ (val ++ ((('<' :: '/' :: tag) ++ ['>']) ++ B)))) tag
      = .ok val := by
  have hfS : findSub (('<' :: tag) ++ ['>'])
      (A ++ ((('<' :: tag) ++ ['>']) ++ (val ++ ((('<' :: '/' :: tag) ++ ['>']) ++ B))))
      = some A.length :=
    findSub_append_self _ A _ hbfS hA
  have hdrop :
      (A ++ ((('<' :: tag) ++ ['>']) ++ (val ++ ((('<' :: '/' :: tag) ++ ['>']) ++ B)))).drop
        (A.length + (('<' :: tag) ++ ['>']).length)
        = val ++ ((('<' :: '/' :: tag) ++ ['>']) ++ B) := by
    rw [← List.append_assoc]
    exact List.drop_left' (by simp)
  have hfE : findSub (('<' :: '/' :: tag) ++ ['>'])
      (val ++ ((('<' :: '/' :: tag) ++ ['>']) ++ B)) = some val.length :=
    findSub_append_self _ val _ hbfE hval
  rw [extract_xml_value]
  dsimp only
  rw [hfS]
  dsimp only
  rw [hdrop, hfE]
  dsimp only
  rw [List.take_left]

theorem contains_child_false (pat X : List Char) (c : Child)
    (hh : pat.head? = some '<')
    (hT1 : containsSub pat hrefOpenTag = false)
    (hs1 : noSpanB pat hrefOpenTag = true)
    (hdir : containsSub pat (hrefCloseTag ++ (dirProps ++ X)) = false)
    (hfA : containsSub pat (hrefCloseTag ++ (propsFilePre ++ clOpenTag)) = false)
    (hsA : noSpanB pat (hrefCloseTag ++ (propsFilePre ++ clOpenTag)) = true)
    (hfB : containsSub pat (clCloseTag ++ (propsFilePost ++ X)) = false)
    (hhref : noLt c.href = true)
    (hst : ∀ st, c.kind = ChildKind.file st → noLt st = true) :
    containsSub pat (childInner c ++ X) = false := by
  cases hk : c.kind with
  | dir =>
    have heq : childInner c ++ X
        = hrefOpenTag ++ (c.href ++ (hrefCloseTag ++ (dirProps ++ X))) := by
      simp [childInner, hk, List.append_assoc]
    rw [heq]
    exact contains_mid_false pat hrefOpenTag c.href _ hh hT1 hs1 hhref hdir
  | file st =>
    have hstX : noLt st = true := hst st hk
    have hmid : containsSub pat
        ((hrefCloseTag ++ (propsFilePre ++ clOpenTag)) ++
          (st ++ (clCloseTag ++ (propsFilePost ++ X)))) = false :=
      contains_mid_false pat _ st _ hh hfA hsA hstX hfB
    have heq : childInner c ++ X
        = hrefOpenTag ++ (c.href ++
            ((hrefCloseTag ++ (propsFilePre ++ clOpenTag)) ++
              (st ++ (clCloseTag ++ (propsFilePost ++ X))))) := by
      simp [childInner, hk, List.append_assoc]
    rw [heq]
    exact contains_mid_false pat hrefOpenTag c.href _ hh hT1 hs1 hhref hmid

end LightSync

namespace LightSync

theorem childOk_href {base : List Char} {c : Child} (h : childOk base c = true) :
    noLt c.href = true := by
  rw [childOk, Bool.and_eq_true, Bool.and_eq_true] at h
  exact h.1.1

theorem childOk_ne {base : List Char} {c : Child} (h : childOk base c = true) :
    ¬ trim_end_matches '/' c.href = trim_end_matches '/' base := by
  rw [childOk, Bool.and_eq_true, Bool.and_eq_true] at h
  have hb := h.1.2
  intro he
  rw [he] at hb
  simp at hb

theorem childOk_file {base : List Char} {c : Child} {st : List Char}
    (h : childOk base c = true) (hk : c.kind = ChildKind.file st) :
    noLt st = true ∧ (parseU64 st).isSome = true := by
  rw [childOk, Bool.and_eq_true, Bool.and_eq_true] at h
  have hm := h.2
  rw [hk] at hm
  simpa [Bool.and_eq_true] using hm

theorem contains_respClose_child (c : Child)
    (hhref : noLt c.href = true)
    (hst : ∀ st, c.kind = ChildKind.file st → noLt st = true) :
    containsSub respClose (childInner c) = false := by
  simpa using contains_child_false respClose [] c (by decide) (by decide) (by decide)
    (by decide) (by decide) (by decide) (by decide) hhref hst

theorem extract_href_child (c : Child) (hhref : noLt c.href = true) :
    extract_xml_value (childInner c) ("D:href".data) = .ok c.href := by
  have hval : containsSub (('<' :: '/' :: ("D:href".data)) ++ ['>']) c.href = false := by
    rw [endTag_href]
    exact containsSub_eq_false_of_noLt (by decide) hhref
  cases hk : c.kind with
  | dir =>
    have hshape : childInner c
        = [] ++ ((('<' :: ("D:href".data)) ++ ['>']) ++
            (c.href ++ ((('<' :: '/' :: ("D:href".data)) ++ ['>']) ++ dirProps))) := by
      simp [childInner, hk, startTag_href, endTag_href, hrefOpenTag, hrefCloseTag]
    rw [hshape]
    exact extract_xml_value_at ("D:href".data) [] c.href dirProps (by decide) (by decide)
      (by decide) hval
  | file st =>
    have hshape : childInner c
        = [] ++ ((('<' :: ("D:href".data)) ++ ['>']) ++
            (c.href ++ ((('<' :: '/' :: ("D:href".data)) ++ ['>']) ++
              (propsFilePre ++ (clOpenTag ++ (st ++ (clCloseTag ++ propsFilePost))))))) := by
      simp [childInner, hk, startTag_href, endTag_href, hrefOpenTag, hrefCloseTag, List.append_assoc]
    rw [hshape]
    exact extract_xml_value_at ("D:href".data) [] c.href
      (propsFilePre ++ (clOpenTag ++ (st ++ (clCloseTag ++ propsFilePost))))
      (by decide) (by decide) (by decide) hval

end LightSync

namespace LightSync

theorem isDir_dir (c : Child) (hk : c.kind = ChildKind.dir) :
    containsSub collectionMark (childInner c) = true := by
  have h0 : containsSub collectionMark dirProps = true := by decide
  have h1 := containsSub_append_right hrefCloseTag h0
  have h2 := containsSub_append_right c.href h1
  have h3 := containsSub_append_right hrefOpenTag h2
  simpa [childInner, hk, List.append_assoc] using h3

theorem isDir_file (c : Child) (st : List Char) (hk : c.kind = ChildKind.file st)
    (hhref : noLt c.href = true) (hst : noLt st = true) :
    containsSub collectionMark (childInner c) = false := by
  have hmid : containsSub collectionMark
      ((hrefCloseTag ++ (propsFilePre ++ clOpenTag)) ++
        (st ++ (clCloseTag ++ propsFilePost))) = false :=
    contains_mid_false collectionMark _ st _ (by decide) (by decide) (by decide) hst (by decide)
  have h := contains_mid_false collectionMark hrefOpenTag c.href _
    (by decide) (by decide) (by decide) hhref hmid
  simpa [childInner, hk, List.append_assoc] using h

theorem extract_size_file (c : Child) (st : List Char) (hk : c.kind = ChildKind.file st)
    (hhref : noLt c.href = true) (hst : noLt st = true) :
    extract_xml_value (childInner c) ("D:getcontentlength".data) = .ok st := by
  have hA : containsSub clOpenTag
      (hrefOpenTag ++ (c.href ++ (hrefCloseTag ++ propsFilePre))) = false :=
    contains_mid_false clOpenTag hrefOpenTag c.href (hrefCloseTag ++ propsFilePre)
      (by decide) (by decide) (by decide) hhref (by decide)
  have hshape : childInner c
      = (hrefOpenTag ++ (c.href ++ (hrefCloseTag ++ propsFilePre))) ++
          ((('<' :: ("D:getcontentlength".data)) ++ ['>']) ++
            (st ++ ((('<' :: '/' :: ("D:getcontentlength".data)) ++ ['>']) ++ propsFilePost))) := by
    rw [startTag_cl, endTag_cl]
    simp [childInner, hk, List.append_assoc]
  rw [hshape]
  exact extract_xml_value_at ("D:getcontentlength".data)
    (hrefOpenTag ++ (c.href ++ (hrefCloseTag ++ propsFilePre))) st propsFilePost
    (by rw [startTag_cl]; exact hA) (by decide) (by decide)
    (by rw [endTag_cl]; exact containsSub_eq_false_of_noLt (by decide) hst)

theorem processBlock_child (base extra : List Char) (c : Child)
    (hok : childOk base c = true) :
    processBlock base (childInner c ++ (respClose ++ extra)) = .ok (some (entryOf c)) := by
  have hhref := childOk_href hok
  have hstfn : ∀ st, c.kind = ChildKind.file st → noLt st = true :=
    fun st hkf => (childOk_file hok hkf).1
  have hcin : containsSub respClose (childInner c) = false :=
    contains_respClose_child c hhref hstfn
  have hfind : findSub respClose (childInner c ++ (respClose ++ extra))
      = some (childInner c).length :=
    findSub_append_self respClose (childInner c) extra (by decide) hcin
  have hext := extract_href_child c hhref
  rw [processBlock, hfind]
  dsimp only
  rw [List.take_left, hext]
  dsimp only
  rw [if_neg (childOk_ne hok)]
  cases hk : c.kind with
  | dir =>
    have hcoll := isDir_dir c hk
    rw [hcoll]
    simp [entryOf, hk]
  | file st =>
    have hcoll := isDir_file c st hk hhref (hstfn st hk)
    have hsz := extract_size_file c st hk hhref (hstfn st hk)
    rw [hcoll, hsz]
    simp [entryOf, hk, Except.toOption]

theorem processBlock_self (base selfHref extra : List Char)
    (hno : noLt selfHref = true)
    (heq : trim_end_matches '/' selfHref = trim_end_matches '/' base) :
    processBlock base (childInner ⟨selfHref, ChildKind.dir⟩ ++ (respClose ++ extra))
      = .ok none := by
  have hstfn : ∀ st, (Child.mk selfHref ChildKind.dir).kind = ChildKind.file st →
      noLt st = true := by
    intro st hkf
    simp at hkf
  have hcin := contains_respClose_child ⟨selfHref, ChildKind.dir⟩ hno hstfn
  have hfind := findSub_append_self respClose (childInner ⟨selfHref, ChildKind.dir⟩)
    extra (by decide) hcin
  have hext := extract_href_child ⟨selfHref, ChildKind.dir⟩ hno
  rw [processBlock, hfind]
  dsimp only
  rw [List.take_left, hext]
  dsimp only
  rw [if_pos heq]

end LightSync

namespace LightSync

theorem contains_prefix_false {pat a : List Char} (b : List Char)
    (h : containsSub pat (a ++ b) = false) : containsSub pat a = false := by
  cases hc : containsSub pat a with
  | false => rfl
  | true =>
    have h2 := containsSub_append_left b hc
    rw [h2] at h
    simp at h

theorem contains_respOpen_child (c : Child)
    (hhref : noLt c.href = true)
    (hst : ∀ st, c.kind = ChildKind.file st → noLt st = true) :
    containsSub respOpen (childInner c ++ (respClose ++ msFooter)) = false :=
  contains_child_false respOpen (respClose ++ msFooter) c (by decide) (by decide) (by decide)
    (by decide) (by decide) (by decide) (by decide) hhref hst

theorem splitOnSub_renderTail (inners : List (List Char)) (pre : List Char)
    (hne : inners ≠ [])
    (hin : ∀ i ∈ inners, containsSub respOpen (i ++ (respClose ++ msFooter)) = false)
    (hpre : containsSub respOpen pre = false) :
    splitOnSub respOpen (pre ++ renderTail inners) = pre :: blocksOf inners := by
  induction inners generalizing pre with
  | nil => exact absurd rfl hne
  | cons i rest ih =>
    cases rest with
    | nil =>
      have hfragment : containsSub respOpen (i ++ (respClose ++ msFooter)) = false :=
        hin i (by simp)
      have hshape : pre ++ renderTail [i]
          = pre ++ (respOpen ++ (i ++ (respClose ++ msFooter))) := by
        simp [renderTail, List.append_assoc]
      rw [hshape, splitOnSub_append respOpen pre _ (by decide) (by decide) hpre,
        splitOnSub_no_occ hfragment]
      simp [blocksOf, List.append_assoc]
    | cons j rest2 =>
      have hfragment := hin i (by simp)
      have hmid : containsSub respOpen (i ++ respClose) = false := by
        apply contains_prefix_false msFooter
        rw [List.append_assoc]
        exact hfragment
      have hshape : pre ++ renderTail (i :: j :: rest2)
          = pre ++ (respOpen ++ ((i ++ respClose) ++ renderTail (j :: rest2))) := by
        simp [renderTail, List.append_assoc]
      rw [hshape, splitOnSub_append respOpen pre _ (by decide) (by decide) hpre]
      rw [ih (i ++ respClose) (by simp) (fun x hx => hin x (by simp [hx])) hmid]
      simp [blocksOf]

theorem processBlocks_children (base : List Char) (children : List Child)
    (h : ∀ c ∈ children, childOk base c = true) :
    processBlocks base (blocksOf (children.map childInner)) = .ok (children.map entryOf) := by
  induction children with
  | nil => simp [blocksOf, processBlocks]
  | cons c rest ih =>
    have hc := h c (by simp)
    have hrest : ∀ x ∈ rest, childOk base x = true := fun x hx => h x (by simp [hx])
    cases rest with
    | nil =>
      have hb := processBlock_child base msFooter c hc
      simp only [List.map_cons, List.map_nil]
      rw [show blocksOf [childInner c] = [childInner c ++ (respClose ++ msFooter)] from by
        simp [blocksOf, List.append_assoc]]
      rw [processBlocks, hb]
      dsimp only
      rw [processBlocks]
    | cons c2 rest2 =>
      have hb := processBlock_child base [] c hc
      have hb' : processBlock base (childInner c ++ respClose) = .ok (some (entryOf c)) := by
        simpa using hb
      simp only [List.map_cons]
      rw [show blocksOf (childInner c :: childInner c2 :: (rest2.map childInner))
          = (childInner c ++ respClose) :: blocksOf (childInner c2 :: (rest2.map childInner))
          from by simp [blocksOf]]
      rw [processBlocks, hb']
      dsimp only
      have hih := ih hrest
      simp only [List.map_cons] at hih
      rw [hih]

theorem parse_render (base selfHref : List Char) (children : List Child)
    (hself : noLt selfHref = true)
    (heq : trim_end_matches '/' selfHref = trim_end_matches '/' base)
    (hch : ∀ c ∈ children, childOk base c = true) :
    parse_propfind_response (renderMultistatus selfHref children) base
      = .ok (children.map entryOf) := by
  have hstfn : ∀ st, (Child.mk selfHref ChildKind.dir).kind = ChildKind.file st →
      noLt st = true := by
    intro st hkf
    simp at hkf
  have hin : ∀ i ∈ childInner ⟨selfHref, ChildKind.dir⟩ :: children.map childInner,
      containsSub respOpen (i ++ (respClose ++ msFooter)) = false := by
    intro i hi
    rcases List.mem_cons.mp hi with h1 | h2
    · subst h1
      exact contains_respOpen_child _ hself hstfn
    · obtain ⟨c, hcmem, rfl⟩ := List.mem_map.mp h2
      exact contains_respOpen_child c (childOk_href (hch c hcmem))
        (fun st hkf => (childOk_file (hch c hcmem) hkf).1)
  have hsplit := splitOnSub_renderTail
    (childInner ⟨selfHref, ChildKind.dir⟩ :: children.map childInner)
    msHeader (by simp) hin (by decide)
  rw [parse_propfind_response, renderMultistatus, hsplit]
  simp only [List.drop_succ_cons, List.drop_zero]
  cases children with
  | nil =>
    simp only [List.map_nil]
    rw [show blocksOf [childInner ⟨selfHref, ChildKind.dir⟩]
        = [childInner ⟨selfHref, ChildKind.dir⟩ ++ (respClose ++ msFooter)] from by
      simp [blocksOf, List.append_assoc]]
    rw [processBlocks, processBlock_self base selfHref msFooter hself heq]
    dsimp only
    rw [processBlocks]
  | cons c rest =>
    simp only [List.map_cons]
    rw [show blocksOf (childInner ⟨selfHref, ChildKind.dir⟩ :: childInner c :: (rest.map childInner))
        = (childInner ⟨selfHref, ChildKind.dir⟩ ++ respClose)
            :: blocksOf (childInner c :: (rest.map childInner))
        from by simp [blocksOf]]
    have hs := processBlock_self base selfHref [] hself heq
    have hs' : processBlock base (childInner ⟨selfHref, ChildKind.dir⟩ ++ respClose)
        = .ok none := by simpa using hs
    rw [processBlocks, hs']
    dsimp only
    have hih := processBlocks_children base (c :: rest) hch
    simp only [List.map_cons] at hih
    rw [hih]

end LightSync

namespace LightSync

theorem dropWhile_head_not (p : Char → Bool) (l : List Char) :
    ∀ c, (l.dropWhile p).head? = some c → p c = false := by
  induction l with
  | nil => intro c h; simp at h
  | cons a t ih =>
    intro c h
    by_cases hp : p a
    · rw [List.dropWhile_cons_of_pos hp] at h
      exact ih c h
    · rw [List.dropWhile_cons_of_neg hp] at h
      simp at h
      subst h
      cases hpa : p a with
      | false => rfl
      | true => exact absurd hpa hp

theorem trim_end_getLast_not (c : Char) (l : List Char) :
    ∀ d, (trim_end_matches c l).getLast? = some d → (d == c) = false := by
  intro d h
  rw [trim_end_matches, List.getLast?_reverse] at h
  exact dropWhile_head_not _ _ d h

theorem extract_error_webdav {xml tag : List Char} {e : SyncError}
    (h : extract_xml_value xml tag = .error e) : ∃ m, e = SyncError.WebDav m := by
  rw [extract_xml_value] at h
  dsimp only at h
  cases h1 : findSub (('<' :: tag) ++ ['>']) xml with
  | none =>
    rw [h1] at h
    dsimp only at h
    refine ⟨("Failed to extract XML value for tag: ".data) ++ tag, ?_⟩
    have := (Except.error.injEq _ _).mp h
    exact this.symm
  | some s =>
    rw [h1] at h
    dsimp only at h
    cases h2 : findSub (('<' :: '/' :: tag) ++ ['>']) (xml.drop (s + (('<' :: tag) ++ ['>']).length)) with
    | none =>
      rw [h2] at h
      dsimp only at h
      refine ⟨("Failed to extract XML value for tag: ".data) ++ tag, ?_⟩
      have := (Except.error.injEq _ _).mp h
      exact this.symm
    | some epos =>
      rw [h2] at h
      simp at h

theorem processBlock_error_webdav {base b : List Char} {e : SyncError}
    (h : processBlock base b = .error e) : ∃ m, e = SyncError.WebDav m := by
  rw [processBlock] at h
  cases hf : findSub respClose b with
  | none => rw [hf] at h; simp at h
  | some i =>
    rw [hf] at h
    dsimp only at h
    cases he : extract_xml_value (b.take i) ("D:href".data) with
    | error e2 =>
      rw [he] at h
      dsimp only at h
      have he2 : e2 = e := (Except.error.injEq _ _).mp h
      obtain ⟨m, hm⟩ := extract_error_webdav he
      exact ⟨m, by rw [← he2, hm]⟩
    | ok path =>
      rw [he] at h
      dsimp only at h
      by_cases hcond : trim_end_matches '/' path = trim_end_matches '/' base
      · rw [if_pos hcond] at h; simp at h
      · rw [if_neg hcond] at h; simp at h

theorem processBlocks_error_webdav {base : List Char} (bs : List (List Char))
    (h : ∃ b ∈ bs, ∃ e, processBlock base b = .error e) :
    ∃ m, processBlocks base bs = .error (SyncError.WebDav m) := by
  induction bs with
  | nil =>
    obtain ⟨b, hmem, _⟩ := h
    simp at hmem
  | cons b0 rest ih =>
    cases hb0 : processBlock base b0 with
    | error e0 =>
      obtain ⟨m, hm⟩ := processBlock_error_webdav hb0
      refine ⟨m, ?_⟩
      rw [processBlocks, hb0, hm]
    | ok entry =>
      obtain ⟨b, hbmem, e, hbe⟩ := h
      rcases List.mem_cons.mp hbmem with rfl | hbr
      · rw [hb0] at hbe; simp at hbe
      · obtain ⟨m, hm⟩ := ih ⟨b, hbr, e, hbe⟩
        refine ⟨m, ?_⟩
        rw [processBlocks, hb0]
        dsimp only
        rw [hm]

theorem kindOf_check (s : Nat) :
    kindOf (check_response_status s)
      = (if (200 ≤ s ∧ s < 300) ∨ s = 207 then ErrKind.success
         else if s = 401 then ErrKind.auth
         else if s = 403 then ErrKind.auth
         else if s = 404 then ErrKind.notFound
         else ErrKind.webdav) := by
  rw [check_response_status]
  split_ifs <;> rfl

theorem kindOf_test (s : Nat) (sh pb : Option (List Char)) (oc : Bool) :
    kindOf (test_connection s sh pb oc)
      = (if s = 401 then ErrKind.auth
         else if s = 403 then ErrKind.auth
         else if ¬ ((200 ≤ s ∧ s < 300) ∨ s = 207) then ErrKind.webdav
         else if s ≠ 207 ∧ s ≠ 200 then ErrKind.webdav
         else ErrKind.success) := by
  rw [test_connection]
  split_ifs <;> rfl

end LightSync

namespace LightSync

/-- C5 counterexample: the claim says a path beginning with "//" keeps its
second slash, so joining base "http://h" with "//a" would have to give
"http://h//a"; `build_url` actually strips every leading slash and yields
"http://h/a". -/
theorem C5_counterexample_double_slash :
    build_url ("http://h".data) ("//a".data) = ("http://h/a".data) ∧
    ("http://h/a".data) ≠ ("http://h//a".data) := ⟨by decide, by decide⟩

/-- C5 (amended): `build_url` removes every leading '/' from the
caller-supplied relative path and every trailing '/' from the base URL (not
exactly one of each), then joins with a single slash; no leading slash
survives on the trimmed path and no trailing slash survives on the trimmed
base. -/
theorem C5_build_url_trims_all (base path : List Char) :
    build_url base path
        = trim_end_matches '/' base ++ '/' :: trim_start_matches '/' path ∧
    (∀ c, (trim_start_matches '/' path).head? = some c → c ≠ '/') ∧
    (∀ c, (trim_end_matches '/' base).getLast? = some c → c ≠ '/') := by
  refine ⟨rfl, ?_, ?_⟩
  · intro c hc
    have := dropWhile_head_not _ _ c hc
    simpa using this
  · intro c hc
    have := trim_end_getLast_not '/' base c hc
    simpa using this

/-- C5 witness: the amended statement instantiated at base "http://h" and
path "a//". -/
theorem C5_witness_concrete :
    build_url ("http://h".data) ("a//".data)
      = trim_end_matches '/' ("http://h".data) ++ '/' :: trim_start_matches '/' ("a//".data) :=
  (C5_build_url_trims_all ("http://h".data) ("a//".data)).1

/-- C6: URL joining is idempotent with respect to caller-supplied slashes:
for every base URL B and relative path P, `build_url B ("/" ++ P) =
build_url B P` and `build_url (B ++ "/") P = build_url B P`. -/
theorem C6_build_url_idempotent (base path : List Char) :
    build_url base ('/' :: path) = build_url base path ∧
    build_url (base ++ ['/']) path = build_url base path := by
  constructor
  · simp [build_url, trim_start_matches, List.dropWhile_cons]
  · have htrim : trim_end_matches '/' (base ++ ['/']) = trim_end_matches '/' base := by
      rw [trim_end_matches, trim_end_matches, List.reverse_append]
      simp [List.dropWhile_cons]
    rw [build_url, build_url, htrim]

/-- C8: constructing a client from any profile that passes validation with
an empty or whitespace-only password fails with the ConfigError message
"Password cannot be empty"; the construction returns before the transport
client is built. -/
theorem C8_empty_password_rejected (config : WebDavServerConfig) (password : List Char)
    (hv : config.validate = .ok ()) (hp : (rustTrim password).isEmpty = true) :
    WebDavClient.new config password
      = .error (SyncError.ConfigError ("Password cannot be empty".data)) := by
  rw [WebDavClient.new, hv]
  dsimp only
  rw [if_pos hp]

/-- C8 witness: the example profile of the spec with a whitespace-only
password. -/
theorem C8_witness_whitespace :
    (exampleConfig.validate = .ok () ∧ (rustTrim ("   ".data)).isEmpty = true) ∧
    WebDavClient.new exampleConfig ("   ".data)
      = .error (SyncError.ConfigError ("Password cannot be empty".data)) :=
  ⟨⟨by decide, by decide⟩,
    C8_empty_password_rejected exampleConfig ("   ".data) (by decide) (by decide)⟩

/-- C9: if any split block the parser recognizes (one containing the
closing marker) has no extractable `D:href`, the whole parse aborts with a
WebDav (protocol) error; no partial entry list is returned. -/
theorem C9_href_failure_aborts (xml base : List Char)
    (h : ∃ b ∈ (splitOnSub respOpen xml).drop 1, ∃ i,
      findSub respClose b = some i ∧
      ∃ e, extract_xml_value (b.take i) ("D:href".data) = .error e) :
    ∃ m, parse_propfind_response xml base = .error (SyncError.WebDav m) := by
  rw [parse_propfind_response]
  apply processBlocks_error_webdav
  obtain ⟨b, hmem, i, hfind, e, hex⟩ := h
  refine ⟨b, hmem, ?_⟩
  rw [processBlock, hfind]
  dsimp only
  rw [hex]
  dsimp only
  exact ⟨e, rfl⟩

/-- C9 witness: a body whose single response block has no href. -/
theorem C9_witness_missing_href :
    ∃ m, parse_propfind_response ("<D:response><D:propstat/></D:response>".data) ("/d".data)
      = .error (SyncError.WebDav m) :=
  C9_href_failure_aborts ("<D:response><D:propstat/></D:response>".data) ("/d".data)
    ⟨("<D:propstat/></D:response>".data), by decide, 13, by decide,
      ⟨SyncError.WebDav (("Failed to extract XML value for tag: ".data) ++ ("D:href".data)),
        by decide⟩⟩

/-- C10: the parser splits on the literal substring "<D:response>"; any body
with no occurrence of that exact substring — including a well-formed
multistatus using another namespace prefix such as "<d:response>" — parses
to Ok with an empty entry list. -/
theorem C10_no_marker_empty (xml base : List Char)
    (h : containsSub respOpen xml = false) :
    parse_propfind_response xml base = .ok [] := by
  rw [parse_propfind_response, splitOnSub_no_occ h]
  rfl

/-- C10 witness: a lowercase-prefixed multistatus body parses to the empty
list. -/
theorem C10_witness_lowercase :
    containsSub respOpen ("<d:response><d:href>/x</d:href></d:response>".data) = false ∧
    parse_propfind_response ("<d:response><d:href>/x</d:href></d:response>".data) ("/x".data)
      = .ok [] :=
  ⟨by decide, C10_no_marker_empty ("<d:response><d:href>/x</d:href></d:response>".data)
    ("/x".data) (by decide)⟩

end LightSync

namespace LightSync

/-- C1 counterexample: on HTTP status 404 the probe (`test_connection`)
produces a WebDav (ProtocolError) error while the shared classifier
(`check_response_status`) produces NotFound, so the probe does not apply the
shared classification. -/
theorem C1_counterexample_404 :
    kindOf (test_connection 404 none none false) = ErrKind.webdav ∧
    kindOf (check_response_status 404) = ErrKind.notFound ∧
    ErrKind.webdav ≠ ErrKind.notFound := by
  refine ⟨by decide, by decide, by decide⟩

/-- C1 (amended): over statuses 100–599 the probe's error kind equals the
shared classifier's except at exactly two families: 404, where the probe
yields a WebDav protocol error but the shared classifier yields NotFound,
and 2xx statuses other than 200 and 207, where the probe yields a WebDav
protocol error but the shared classifier yields success. -/
theorem C1_probe_vs_shared_classifier (s : Nat) (sh pb : Option (List Char)) (oc : Bool)
    (h1 : 100 ≤ s) (h2 : s ≤ 599) :
    (s = 404 → kindOf (test_connection s sh pb oc) = ErrKind.webdav ∧
      kindOf (check_response_status s) = ErrKind.notFound) ∧
    (200 ≤ s ∧ s < 300 ∧ s ≠ 200 ∧ s ≠ 207 →
      kindOf (test_connection s sh pb oc) = ErrKind.webdav ∧
      kindOf (check_response_status s) = ErrKind.success) ∧
    (s ≠ 404 → ¬ (200 ≤ s ∧ s < 300 ∧ s ≠ 200 ∧ s ≠ 207) →
      kindOf (test_connection s sh pb oc) = kindOf (check_response_status s)) := by
  rw [kindOf_test, kindOf_check]
  refine ⟨?_, ?_, ?_⟩
  · intro h404
    subst h404
    exact ⟨by simp, by simp⟩
  · intro hodd
    constructor
    · split_ifs <;> first | rfl | omega
    · split_ifs <;> first | rfl | omega
  · intro hne hnot
    split_ifs <;> first | rfl | omega

/-- C1 witness: at status 401 the probe and the shared classifier agree. -/
theorem C1_kind_agreement_witness :
    (100 ≤ 401 ∧ 401 ≤ 599) ∧
    kindOf (test_connection 401 none none false) = kindOf (check_response_status 401) :=
  ⟨by decide, (C1_probe_vs_shared_classifier 401 none none false (by decide)
    (by decide)).2.2 (by decide) (by decide)⟩

/-- C2 counterexample: 204 is a 2xx success status, yet `test_connection`
returns an error ("Server does not appear to support WebDAV protocol")
instead of Ok. -/
theorem C2_counterexample_204 :
    (200 ≤ 204 ∧ 204 < 300) ∧
    test_connection 204 none none false
      = .error (SyncError.WebDav
          ("Server does not appear to support WebDAV protocol".data)) :=
  ⟨by decide, by decide⟩

/-- C2 (amended): `test_connection` returns Ok with the detected server type
exactly for statuses 200 and 207; every other status — including 2xx
statuses other than 200 — produces an error. -/
theorem C2_test_connection_only_200_or_207 (s : Nat) (sh pb : Option (List Char)) (oc : Bool) :
    ((s = 200 ∨ s = 207) → test_connection s sh pb oc = .ok (detect_server_type sh pb oc)) ∧
    (s ≠ 200 → s ≠ 207 → ∃ e, test_connection s sh pb oc = .error e) := by
  constructor
  · intro hs
    rw [test_connection]
    rcases hs with rfl | rfl
    · simp
    · simp
  · intro h200 h207
    by_cases hA : s = 401
    · exact ⟨SyncError.AuthError ("Authentication failed: Invalid username or password".data),
        by rw [test_connection, if_pos hA]⟩
    by_cases hB : s = 403
    · exact ⟨SyncError.AuthError ("Access forbidden: User does not have permission".data),
        by rw [test_connection, if_neg hA, if_pos hB]⟩
    by_cases hC : (200 ≤ s ∧ s < 300) ∨ s = 207
    · refine ⟨SyncError.WebDav ("Server does not appear to support WebDAV protocol".data), ?_⟩
      rw [test_connection, if_neg hA, if_neg hB, if_neg (not_not_intro hC)]
      dsimp only
      rw [if_pos (show s ≠ 207 ∧ s ≠ 200 from ⟨h207, h200⟩)]
    · refine ⟨SyncError.WebDav
        (("Server returned error status: ".data) ++ natChars s ++ ' ' :: reasonChars s), ?_⟩
      rw [test_connection, if_neg hA, if_neg hB, if_pos hC]

/-- C2 witness: a 207 response yields Ok with the detected type. -/
theorem C2_witness_207 :
    test_connection 207 none none false = .ok (detect_server_type none none false) :=
  (C2_test_connection_only_200_or_207 207 none none false).1 (Or.inr rfl)

/-- C3: the shared status classifier is total on 100–599 and returns
exactly one of the four outcomes: success for 2xx-or-207, AuthError with an
invalid-credentials message for 401, AuthError with an
insufficient-permission message for 403, NotFound for 404, and a WebDav
protocol error for every remaining code. -/
theorem C3_classifier_total (s : Nat) (h1 : 100 ≤ s) (h2 : s ≤ 599) :
    (((200 ≤ s ∧ s < 300) ∨ s = 207) → check_response_status s = .ok ()) ∧
    (s = 401 → check_response_status s = .error (SyncError.AuthError
      ("Authentication failed: Invalid username or password. Please check your credentials.".data))) ∧
    (s = 403 → check_response_status s = .error (SyncError.AuthError
      ("Access forbidden: You do not have permission to access this resource. Please check your account permissions.".data))) ∧
    (s = 404 → check_response_status s = .error (SyncError.NotFound
      ("Resource not found: The requested file or folder does not exist on the server.".data))) ∧
    (¬ ((200 ≤ s ∧ s < 300) ∨ s = 207) → s ≠ 401 → s ≠ 403 → s ≠ 404 →
      ∃ m, check_response_status s = .error (SyncError.WebDav m)) := by
  refine ⟨?_, ?_, ?_, ?_, ?_⟩
  · intro hs
    rw [check_response_status, if_pos hs]
  · intro hs
    subst hs
    rw [check_response_status, if_neg (by decide), if_pos rfl]
  · intro hs
    subst hs
    rw [check_response_status, if_neg (by decide), if_neg (by decide), if_pos rfl]
  · intro hs
    subst hs
    rw [check_response_status, if_neg (by decide), if_neg (by decide), if_neg (by decide),
      if_pos rfl]
  · intro hns h401 h403 h404
    rw [check_response_status, if_neg hns, if_neg h401, if_neg h403, if_neg h404]
    split_ifs <;> exact ⟨_, rfl⟩

/-- C3 witness: status 404 classifies as NotFound. -/
theorem C3_witness_404 :
    (100 ≤ 404 ∧ 404 ≤ 599) ∧
    check_response_status 404 = .error (SyncError.NotFound
      ("Resource not found: The requested file or folder does not exist on the server.".data)) :=
  ⟨by decide, (C3_classifier_total 404 (by decide) (by decide)).2.2.2.1 rfl⟩

end LightSync

namespace LightSync

/-- C4: for every rendered 207 multi-status body describing a collection
(whose own fragment normalizes to the queried path) with N well-formed
children, the parser returns exactly the N child entries in order: none has
a normalized path equal to the normalized queried path, every directory
entry has size 0 and is-directory true, and every file entry has
is-directory false and carries the parsed content length. -/
theorem C4_multistatus_parse (base selfHref : List Char) (children : List Child)
    (hself : noLt selfHref = true)
    (heq : trim_end_matches '/' selfHref = trim_end_matches '/' base)
    (hch : ∀ c ∈ children, childOk base c = true) :
    parse_propfind_response (renderMultistatus selfHref children) base
        = .ok (children.map entryOf) ∧
    (children.map entryOf).length = children.length ∧
    (∀ e ∈ children.map entryOf,
      ¬ trim_end_matches '/' e.path = trim_end_matches '/' base) ∧
    (∀ c ∈ children, c.kind = ChildKind.dir →
      (entryOf c).is_directory = true ∧ (entryOf c).size = 0) ∧
    (∀ c ∈ children, ∀ st, c.kind = ChildKind.file st →
      (entryOf c).is_directory = false ∧
        ∃ n, parseU64 st = some n ∧ (entryOf c).size = n) := by
  refine ⟨parse_render base selfHref children hself heq hch, by simp, ?_, ?_, ?_⟩
  · intro e he
    obtain ⟨c, hcmem, rfl⟩ := List.mem_map.mp he
    have := childOk_ne (hch c hcmem)
    simpa [entryOf] using this
  · intro c hcmem hk
    simp [entryOf, hk]
  · intro c hcmem st hk
    have hsome := (childOk_file (hch c hcmem) hk).2
    obtain ⟨n, hn⟩ := Option.isSome_iff_exists.mp hsome
    exact ⟨by simp [entryOf, hk], n, hn, by simp [entryOf, hk, hn]⟩

/-- C4 witness: the spec's concrete scenario — a listing of "/documents"
whose body holds the directory's own fragment plus a 1024-byte file and a
subdirectory — parses to exactly those two entries. -/
theorem C4_witness_documents :
    parse_propfind_response
        (renderMultistatus ("/documents/".data)
          [⟨"/documents/report.pdf".data, ChildKind.file ("1024".data)⟩,
           ⟨"/documents/photos/".data, ChildKind.dir⟩])
        ("/documents".data)
      = .ok (List.map entryOf
          [⟨"/documents/report.pdf".data, ChildKind.file ("1024".data)⟩,
           ⟨"/documents/photos/".data, ChildKind.dir⟩]) :=
  (C4_multistatus_parse ("/documents".data) ("/documents/".data)
    [⟨"/documents/report.pdf".data, ChildKind.file ("1024".data)⟩,
     ⟨"/documents/photos/".data, ChildKind.dir⟩]
    (by decide) (by decide) (by decide)).1

/-- C7: server-type detection is a pure first-match-wins precedence: the
`Server` header is matched case-insensitively for nextcloud, owncloud,
apache, nginx in that order; if it decides nothing, `X-Powered-By` is
matched for nextcloud then owncloud; if that decides nothing, presence of
`X-OC-Version` means owncloud, and otherwise the type is generic.  A
`Server` value containing both "nginx" and "nextcloud" yields nextcloud. -/
theorem C7_detect_precedence (s p : List Char) (sh pb : Option (List Char)) (oc : Bool) :
    (containsSub ("nextcloud".data) (toLowerChars s) = true →
      detect_server_type (some s) pb oc = ("nextcloud".data)) ∧
    (containsSub ("nextcloud".data) (toLowerChars s) = false →
     containsSub ("owncloud".data) (toLowerChars s) = true →
      detect_server_type (some s) pb oc = ("owncloud".data)) ∧
    (containsSub ("nextcloud".data) (toLowerChars s) = false →
     containsSub ("owncloud".data) (toLowerChars s) = false →
     containsSub ("apache".data) (toLowerChars s) = true →
      detect_server_type (some s) pb oc = ("apache".data)) ∧
    (containsSub ("nextcloud".data) (toLowerChars s) = false →
     containsSub ("owncloud".data) (toLowerChars s) = false →
     containsSub ("apache".data) (toLowerChars s) = false →
     containsSub ("nginx".data) (toLowerChars s) = true →
      detect_server_type (some s) pb oc = ("nginx".data)) ∧
    (serverHeaderType sh = none →
     containsSub ("nextcloud".data) (toLowerChars p) = true →
      detect_server_type sh (some p) oc = ("nextcloud".data)) ∧
    (serverHeaderType sh = none →
     containsSub ("nextcloud".data) (toLowerChars p) = false →
     containsSub ("owncloud".data) (toLowerChars p) = true →
      detect_server_type sh (some p) oc = ("owncloud".data)) ∧
    (serverHeaderType sh = none → poweredByType pb = none →
      detect_server_type sh pb true = ("owncloud".data)) ∧
    (serverHeaderType sh = none → poweredByType pb = none →
      detect_server_type sh pb false = ("generic".data)) ∧
    detect_server_type (some ("nginx nextcloud".data)) none false = ("nextcloud".data) := by
  refine ⟨?_, ?_, ?_, ?_, ?_, ?_, ?_, ?_, by decide⟩
  · intro h1
    simp [detect_server_type, serverHeaderType, h1]
  · intro h1 h2
    simp [detect_server_type, serverHeaderType, h1, h2]
  · intro h1 h2 h3
    simp [detect_server_type, serverHeaderType, h1, h2, h3]
  · intro h1 h2 h3 h4
    simp [detect_server_type, serverHeaderType, h1, h2, h3, h4]
  · intro h1 h2
    simp [detect_server_type, poweredByType, h1, h2]
  · intro h1 h2 h3
    simp [detect_server_type, poweredByType, h1, h2, h3]
  · intro h1 h2
    simp [detect_server_type, h1, h2]
  · intro h1 h2
    simp [detect_server_type, h1, h2]

/-- C7 witness: a `Server` header "Apache/2.4 Nextcloud" is detected as
nextcloud through the first precedence rule. -/
theorem C7_witness_nextcloud :
    detect_server_type (some ("Apache/2.4 Nextcloud".data)) none false = ("nextcloud".data) :=
  (C7_detect_precedence ("Apache/2.4 Nextcloud".data) [] none none false).1 (by decide)

end LightSync
